import Mathlib

/-!
# Verification of the simple-git-tui command-orchestration core

Shallow embedding of the Rust sources of `siroio/simple-git-tui`
(`src/git.rs`, `src/app/view_model.rs`).  External process invocations are
modelled by oracle environments that supply the captured output of each
launch; everything else is translated directly from the source.
-/

namespace GitTui

/-- `LfsMode` from `src/git.rs`: the optional large-file-storage follow-up
stage selector of a command. -/
inductive LfsMode where
  | none
  | fetch
  | pull
deriving DecidableEq

/-- `RepoFile` from `src/git.rs`: one working-tree entry of the porcelain
status listing. -/
structure RepoFile where
  status : String
  path : String
deriving DecidableEq

instance : Inhabited RepoFile := ⟨⟨"", ""⟩⟩

/-- `RepoStatus` from `src/git.rs`: branch, counts and the ordered file list
derived from one status snapshot. -/
structure RepoStatus where
  branch : String
  staged : Nat
  unstaged : Nat
  untracked : Nat
  files : List RepoFile
deriving DecidableEq

/-- `CommandResult` from `src/git.rs`: the two output buffers produced by one
asynchronous invocation.  Captured process output is modelled as its list of
lines (an empty capture is the empty list). -/
structure CommandResult where
  log_lines : List String
  result_lines : List String
deriving DecidableEq

/-- Outcome of launching one external process: either its captured stdout
lines, stderr lines and exit code, or a launch failure message.  This models
the `std::process::Command::output()` result consumed by the source. -/
inductive ProcOutcome where
  | ok (stdout : List String) (stderr : List String) (code : Int)
  | launchErr (msg : String)
deriving DecidableEq

/-- Char-list splitter on the separator `" -> "`, the executable counterpart
of Rust's `str::split(" -> ")` used by `RepoFile::operands` and
`RepoFile::display_label`. -/
def splitArrow : List Char → List (List Char)
  | ' ' :: '-' :: '>' :: ' ' :: rest => [] :: splitArrow rest
  | c :: rest =>
      match splitArrow rest with
      | [] => [[c]]
      | h :: t => (c :: h) :: t
  | [] => [[]]

/-- Char-list splitter on a character predicate, the executable counterpart
of Rust's `str::split(|c| ...)`. -/
def splitBy (p : Char → Bool) : List Char → List (List Char)
  | [] => [[]]
  | c :: rest =>
      if p c then [] :: splitBy p rest
      else
        match splitBy p rest with
        | [] => [[c]]
        | h :: t => (c :: h) :: t

/-- `RepoFile::operands` from `src/git.rs`: a rename path `"old -> new"`
yields the two positional operands, any other path yields itself. -/
def RepoFile.operands (f : RepoFile) : List String :=
  let parts := (splitArrow f.path.toList).map String.mk
  if parts.length = 2 then parts else [f.path]

/-- `str::trim_matches(c)`: strip every leading and trailing occurrence of
the character `c`. -/
def trimMatchesChar (c : Char) (s : String) : String :=
  String.mk (((s.toList.dropWhile (fun d => d = c)).reverse.dropWhile
    (fun d => d = c)).reverse)

/-- `RepoFile::display_label` from `src/git.rs`: rename target, quote-trimmed
and basename-reduced. -/
def RepoFile.display_label (f : RepoFile) : String :=
  let parts := (splitArrow f.path.toList).map String.mk
  let target := parts.getLastD f.path
  let cleaned := trimMatchesChar '"' target
  let segs := (splitBy (fun c => c = '/' || c = '\\') cleaned.toList).map String.mk
  let base := (segs.reverse.find? (fun s => !s.isEmpty)).getD cleaned
  if base.isEmpty then target else base

/-- One iteration of the status-line loop of `load_repo_status`
(`src/git.rs` lines 106-131): classify the two-character code, bump the
matching count and append the `RepoFile`.  Lines shorter than 3 characters
are skipped. -/
def statusLineStep (st : RepoStatus) (line : String) : RepoStatus :=
  let cs := line.toList
  if cs.length < 3 then st
  else
    let file_status := String.mk (cs.take 2)
    let raw_path := String.mk (cs.drop 3)
    let st :=
      if file_status = "??" then { st with untracked := st.untracked + 1 }
      else
        let x := (cs.take 2).headD ' '
        let y := ((cs.take 2).drop 1).headD ' '
        let st := if x ≠ ' ' then { st with staged := st.staged + 1 } else st
        if y ≠ ' ' then { st with unstaged := st.unstaged + 1 } else st
    { st with files := st.files ++ [⟨file_status, raw_path⟩] }

/-- The pure core of `load_repo_status` from `src/git.rs`: fold the status
lines returned by the external tool (the branch query and process launch are
external; the branch result is a parameter). -/
def load_repo_status (branch : String) (lines : List String) : RepoStatus :=
  lines.foldl statusLineStep
    { branch := branch, staged := 0, unstaged := 0, untracked := 0, files := [] }

/-- Modelled from the spec (section 8): the per-line staged/unstaged/untracked
count contribution, written as a function of the line's first two characters
alone; to be compared with the behaviour of `load_repo_status`. -/
def statusLineClass (line : String) : Nat × Nat × Nat :=
  let cs := line.toList
  if cs.length < 3 then (0, 0, 0)
  else if String.mk (cs.take 2) = "??" then (0, 0, 1)
  else ((if (cs.take 2).headD ' ' ≠ ' ' then 1 else 0),
        (if ((cs.take 2).drop 1).headD ' ' ≠ ' ' then 1 else 0), 0)

/-- Modelled from the spec (section 8): the `RepoFile` contributed by a single
status line, `none` for a malformed (short) line. -/
def statusLineFile (line : String) : Option RepoFile :=
  let cs := line.toList
  if cs.length < 3 then none
  else some ⟨String.mk (cs.take 2), String.mk (cs.drop 3)⟩

/-- The tokenizer loop of `parse_args_line` from `src/git.rs`: state is the
emitted tokens, the current token, the in-quotes flag and the pending-escape
flag. -/
def parse_args_go : List Char → List String → String → Bool → Bool → List String
  | [], args, current, _, _ =>
      if current = "" then args else args ++ [current]
  | c :: rest, args, current, in_quotes, escape =>
      if escape then
        parse_args_go rest args (current.push c) in_quotes false
      else if c = '\\' && in_quotes then
        parse_args_go rest args current in_quotes true
      else if c = '"' then
        parse_args_go rest args current (!in_quotes) escape
      else if c.isWhitespace && !in_quotes then
        if current = "" then parse_args_go rest args current in_quotes escape
        else parse_args_go rest (args ++ [current]) "" in_quotes escape
      else
        parse_args_go rest args (current.push c) in_quotes escape

/-- `parse_args_line` from `src/git.rs`: tokenize a raw command line honoring
double quotes and backslash escapes inside quotes. -/
def parse_args_line (s : String) : List String :=
  parse_args_go s.toList [] "" false false

/-- `Vec::join(" ")`: concatenate the strings, separated by single spaces. -/
def joinSpace : List String → String
  | [] => ""
  | [a] => a
  | a :: b :: rest => a ++ " " ++ joinSpace (b :: rest)

/-- `ViewModel::clean_operands` from `src/app/view_model.rs`: operands with
surrounding quotes trimmed. -/
def clean_operands (entry : RepoFile) : List String :=
  entry.operands.map (fun p => trimMatchesChar '"' p)

/-- `ViewModel::quoted_operands` from `src/app/view_model.rs`: quote-trimmed
operands, re-quoted and joined by spaces into one string. -/
def quoted_operands (entry : RepoFile) : String :=
  joinSpace (entry.operands.map (fun p => "\"" ++ trimMatchesChar '"' p ++ "\""))

/-- The processed diff template tokens of `ViewModel::build_diff_command`
(`src/app/view_model.rs` lines 495-506): parse the configured template
(default `"diff HEAD --"`), drop a leading `git` token, and fall back to
`["diff", "HEAD", "--"]` when nothing remains. -/
def diffTemplateTokens (files_diff_cmd : Option String) : List String :=
  let raw := files_diff_cmd.getD "diff HEAD --"
  let args0 := parse_args_line raw
  let args1 :=
    match args0 with
    | a :: rest => if a = "git" then rest else a :: rest
    | [] => []
  if args1.isEmpty then ["diff", "HEAD", "--"] else args1

/-- The placeholder-substitution loop of `ViewModel::build_diff_command`
(`src/app/view_model.rs` lines 508-517): replace each `"{files}"` token by
the operands, and report whether any replacement happened. -/
def substFiles (operands : List String) : List String → List String × Bool
  | [] => ([], false)
  | a :: rest =>
      let tail := substFiles operands rest
      if a = "{files}" then (operands ++ tail.1, true)
      else (a :: tail.1, tail.2)

/-- `ViewModel::build_diff_command` from `src/app/view_model.rs`: the final
argument vector and the pretty command label for a tracked file's diff. -/
def build_diff_command (files_diff_cmd : Option String) (operands : List String) :
    List String × String :=
  let args := diffTemplateTokens files_diff_cmd
  let sub := substFiles operands args
  let final_args :=
    if sub.2 then sub.1
    else if sub.1.contains "--" then sub.1 ++ operands
    else sub.1 ++ ["--"] ++ operands
  let label := "git " ++ joinSpace (final_args.map
    (fun a => if a.contains ' ' then "\"" ++ a ++ "\"" else a))
  (final_args, label)

/-- The platform null-device name used by the untracked-file diff of
`ViewModel::show_diff_for_selected_file` (`cfg!(windows)` selects `NUL`). -/
def devNull (is_windows : Bool) : String :=
  if is_windows then "NUL" else "/dev/null"

/-- Oracle for the two process launches of `run_git_with_lfs`: the captured
outcome of the primary invocation, the value of the shared cancellation flag
at the between-stages check, and the captured outcome of the LFS stage. -/
structure RunEnv where
  primaryOutcome : ProcOutcome
  cancelAtLfsCheck : Bool
  lfsOutcome : ProcOutcome

/-- `run_git_with_lfs` from `src/git.rs`, with process launches supplied by
the oracle `env`.  Returns the `CommandResult` together with a flag telling
whether the LFS follow-up stage was invoked. -/
def run_git_with_lfs (env : RunEnv) (args_str : String) (lfs_mode : LfsMode) :
    CommandResult × Bool :=
  let result_lines := ["$ git " ++ args_str]
  let parts := parse_args_line args_str
  if parts.isEmpty then
    (⟨[], result_lines ++ ["ERROR: empty git command"]⟩, false)
  else
    match env.primaryOutcome with
    | .launchErr e =>
        (⟨[], result_lines ++ ["ERROR: failed to run git: " ++ e]⟩, false)
    | .ok stdout stderr code =>
        let log_lines := if stdout.isEmpty then ["<no stdout from git>"] else stdout
        let result_lines := result_lines ++ ["git exit code: " ++ toString code]
          ++ (if stderr.isEmpty then [] else "--- git stderr ---" :: stderr)
        if env.cancelAtLfsCheck then
          (⟨log_lines, result_lines ++ ["<canceled before LFS stage>"]⟩, false)
        else
          match lfs_mode with
          | .none => (⟨log_lines, result_lines⟩, false)
          | .fetch =>
              let result_lines := result_lines ++ ["", "== git lfs fetch --all =="]
              match env.lfsOutcome with
              | .ok lout lerr lcode =>
                  (⟨log_lines ++ (if lout.isEmpty then []
                      else ["", "--- git lfs fetch --all ---"] ++ lout),
                    result_lines ++ ["git lfs fetch exit code: " ++ toString lcode]
                      ++ (if lerr.isEmpty then [] else "--- git lfs stderr ---" :: lerr)⟩,
                   true)
              | .launchErr e =>
                  (⟨log_lines, result_lines
                      ++ ["ERROR: failed to run git lfs fetch: " ++ e]⟩, true)
          | .pull =>
              let result_lines := result_lines ++ ["", "== git lfs pull =="]
              match env.lfsOutcome with
              | .ok lout lerr lcode =>
                  (⟨log_lines ++ (if lout.isEmpty then []
                      else ["", "--- git lfs pull ---"] ++ lout),
                    result_lines ++ ["git lfs pull exit code: " ++ toString lcode]
                      ++ (if lerr.isEmpty then [] else "--- git lfs stderr ---" :: lerr)⟩,
                   true)
              | .launchErr e =>
                  (⟨log_lines, result_lines
                      ++ ["ERROR: failed to run git lfs pull: " ++ e]⟩, true)

/-- `UiMessage` from `src/app/view_model.rs`: the one-shot completion message
delivered from the worker thread. -/
inductive UiMessage where
  | commandFinished (res : CommandResult)
deriving DecidableEq

/-- The send guard of the worker closure spawned by
`ViewModel::run_command_async` (`src/app/view_model.rs` lines 588-594): the
completion message is sent only when the cancellation flag is still clear. -/
def worker_send (cancelAtSend : Bool) (res : CommandResult) : List UiMessage :=
  if cancelAtSend then [] else [UiMessage.commandFinished res]

/-- `Focus` from `src/app/view_model.rs`. -/
inductive Focus where
  | cmd
  | files
  | log
  | result
deriving DecidableEq

/-- `Mode` from `src/app/view_model.rs`. -/
inductive Mode where
  | normal
  | commandLine
deriving DecidableEq

/-- The interaction state owned by `ViewModel` (`src/app/view_model.rs`),
restricted to the fields the key handlers read and write.  The shared
cancellation flag is embedded as the boolean the render thread observes, and
the configured diff template (`config.files_diff_cmd`) rides along as state
because `build_diff_command` reads it. -/
structure VMState where
  selected_cmd : Nat
  selected_file : Nat
  focus : Focus
  mode : Mode
  log_lines : List String
  result_lines : List String
  log_scroll : Nat
  result_scroll : Nat
  log_view_height : Nat
  result_view_height : Nat
  cmdline : String
  needs_full_redraw : Bool
  is_running : Bool
  cancel_flag : Bool
  status : RepoStatus
  pending_discard : Option Nat
  files_diff_cmd : Option String
deriving DecidableEq

/-- External side effects the handlers request: spawning the background
worker, running an interactive process with the terminal inherited, or the
synchronous diff invocation of `show_diff_for_selected_file`. -/
inductive Effect where
  | spawnAsync (args_str : String) (lfs : LfsMode)
  | runInteractive (args_str : String)
  | runDiff (args : List String)
deriving DecidableEq

/-- Oracle for the external world seen by the view model: the outcome of the
synchronous diff invocation, the outcome of an interactive handoff, the
status snapshot a refresh would load, and the compile-time platform flag. -/
structure ExtEnv where
  diffOutcome : List String → ProcOutcome
  interactiveOutcome : Except String Int
  refreshedStatus : RepoStatus
  is_windows : Bool

/-- `ViewModel::refresh_repo_status` from `src/app/view_model.rs` (lines
645-654): install the freshly loaded status, clamp the selected file index,
and clear any pending discard. -/
def refresh_repo_status (s : VMState) (newStatus : RepoStatus) : VMState :=
  let s1 := { s with status := newStatus }
  let s2 :=
    if s1.selected_file ≥ newStatus.files.length ∧ ¬newStatus.files.isEmpty then
      { s1 with selected_file := newStatus.files.length - 1 }
    else s1
  let s3 := if newStatus.files.isEmpty then { s2 with selected_file := 0 } else s2
  { s3 with pending_discard := none }

/-- `ViewModel::run_command_async` from `src/app/view_model.rs` (lines
570-595): reject with a warning while a command is running, otherwise mark
running, reset the buffers and spawn the worker. -/
def run_command_async (s : VMState) (args_str : String) (lfs_mode : LfsMode) :
    VMState × List Effect :=
  if s.is_running then
    ({ s with result_lines := s.result_lines ++ ["WARN: already running command"] }, [])
  else
    ({ s with
        is_running := true,
        cancel_flag := false,
        log_lines := ["<running...>"],
        result_lines := ["$ git " ++ args_str, "running..."],
        log_scroll := 0,
        result_scroll := 0 },
     [Effect.spawnAsync args_str lfs_mode])

/-- `ViewModel::run_command_interactive` from `src/app/view_model.rs` (lines
597-643): reject with a warning while a command is running, otherwise block
on the foreign process (outcome supplied by the oracle), record its exit and
refresh the status. -/
def run_command_interactive (env : ExtEnv) (s : VMState) (args_str : String) :
    VMState × List Effect :=
  if s.is_running then
    ({ s with result_lines := s.result_lines ++ ["WARN: already running command"] }, [])
  else
    let s1 := { s with
        is_running := true,
        log_lines := ["<interactive command: terminal will switch>"],
        result_lines := ["$ git " ++ args_str] }
    let s2 :=
      match env.interactiveOutcome with
      | .ok code =>
          { s1 with result_lines := s1.result_lines ++ ["git exit code: " ++ toString code] }
      | .error e =>
          { s1 with result_lines := s1.result_lines ++ ["ERROR: failed interactive git: " ++ e] }
    (refresh_repo_status { s2 with is_running := false, needs_full_redraw := true }
       env.refreshedStatus,
     [Effect.runInteractive args_str])

/-- `ViewModel::run_command` from `src/app/view_model.rs` (lines 561-568):
clear the pending discard and dispatch to the interactive or background
path. -/
def run_command (env : ExtEnv) (s : VMState) (args_str : String) (lfs_mode : LfsMode)
    (interactive : Bool) : VMState × List Effect :=
  let s1 := { s with pending_discard := none }
  if interactive then run_command_interactive env s1 args_str
  else run_command_async s1 args_str lfs_mode

/-- `ViewModel::poll_messages` from `src/app/view_model.rs` (lines 106-122):
drain the channel; a completion received while the cancellation flag is set
is discarded, otherwise it is applied and the status refreshed. -/
def poll_messages (s : VMState) (msgs : List UiMessage) (newStatus : RepoStatus) :
    VMState :=
  msgs.foldl
    (fun st msg =>
      match msg with
      | UiMessage.commandFinished res =>
          if st.cancel_flag then st
          else
            refresh_repo_status
              { st with
                  is_running := false,
                  log_lines := res.log_lines,
                  result_lines := res.result_lines,
                  log_scroll := 0,
                  result_scroll := 0 } newStatus)
    s

/-- The Control-C branch of `ViewModel::handle_key_normal`
(`src/app/view_model.rs` lines 136-146): while a command runs, set the
cancellation flag, mark not running, append the cancellation notices and
refresh the status. -/
def handle_ctrl_c (s : VMState) (newStatus : RepoStatus) : VMState :=
  if s.is_running then
    refresh_repo_status
      { s with
          cancel_flag := true,
          is_running := false,
          log_lines := s.log_lines ++ ["<canceled by user>"],
          result_lines := s.result_lines
            ++ ["canceled by user (git process may still finish in background)"] }
      newStatus
  else s

/-- `ViewModel::show_diff_for_selected_file` from `src/app/view_model.rs`
(lines 420-492): build the diff invocation (template for tracked files,
null-device comparison for untracked ones), run it synchronously via the
oracle, and install its output in the buffers. -/
def show_diff_for_selected_file (env : ExtEnv) (s : VMState) (is_auto : Bool) :
    VMState × List Effect :=
  if s.status.files.isEmpty then (s, [])
  else if s.is_running then
    (if is_auto then s
     else { s with result_lines := s.result_lines
        ++ ["WARN: cannot show diff while git is running"] }, [])
  else
    let entry := s.status.files.getD s.selected_file default
    let operands := clean_operands entry
    if operands.isEmpty then
      (if is_auto then s
       else { s with result_lines := s.result_lines
          ++ ["WARN: could not resolve file path for diff"] }, [])
    else
      let dev_null := devNull env.is_windows
      let argsLabel :=
        if entry.status = "??" then
          (["diff", "--no-index", "--", dev_null] ++ operands,
           "git diff --no-index -- " ++ dev_null ++ " " ++ joinSpace operands)
        else build_diff_command s.files_diff_cmd operands
      let args := argsLabel.1
      let cmd_label := argsLabel.2
      match env.diffOutcome args with
      | .ok stdout stderr code =>
          ({ s with
              log_lines := if stdout.isEmpty then ["<no diff output>"] else stdout,
              result_lines := ["$ " ++ cmd_label, "git exit code: " ++ toString code]
                ++ (if stderr.isEmpty then [] else "--- git stderr ---" :: stderr),
              log_scroll := 0,
              result_scroll := 0 }, [Effect.runDiff args])
      | .launchErr e =>
          ({ s with
              log_lines := ["<no diff output>"],
              result_lines := ["$ " ++ cmd_label, "ERROR: failed to run git diff: " ++ e],
              log_scroll := 0,
              result_scroll := 0 }, [Effect.runDiff args])

/-- `ViewModel::toggle_stage_selected_file` from `src/app/view_model.rs`
(lines 349-378): stage or unstage the selected file, forcing `add -u` when
the working tree shows a deletion. -/
def toggle_stage_selected_file (env : ExtEnv) (s : VMState) : VMState × List Effect :=
  if s.status.files.isEmpty then (s, [])
  else
    let entry := s.status.files.getD s.selected_file default
    let x := entry.status.toList.headD ' '
    let is_untracked := entry.status = "??"
    let is_staged := x ≠ ' ' ∧ ¬is_untracked
    let y := (entry.status.toList.drop 1).headD ' '
    let has_unstaged_delete := y = 'D'
    let ops := quoted_operands entry
    if ops = "" then (s, [])
    else
      let cmd :=
        if is_staged then "restore --staged -- " ++ ops
        else if has_unstaged_delete then "add -u -- " ++ ops
        else "add -- " ++ ops
      run_command env s cmd LfsMode.none false

/-- The destructive invocation chosen by `ViewModel::discard_selected_file`
(`src/app/view_model.rs` lines 412-416): remove-from-disk for untracked
files, revert-staged-and-worktree otherwise. -/
def discard_cmd (entry : RepoFile) : String :=
  if entry.status = "??" then "clean -fd -- " ++ quoted_operands entry
  else "restore --staged --worktree -- " ++ quoted_operands entry

/-- `ViewModel::discard_selected_file` from `src/app/view_model.rs` (lines
402-418). -/
def discard_selected_file (env : ExtEnv) (s : VMState) : VMState × List Effect :=
  if s.status.files.isEmpty then (s, [])
  else
    let entry := s.status.files.getD s.selected_file default
    let ops := quoted_operands entry
    if ops = "" then (s, [])
    else run_command env s (discard_cmd entry) LfsMode.none false

/-- `ViewModel::handle_discard_key` from `src/app/view_model.rs` (lines
380-400): the two-step confirm of the `x` key. -/
def handle_discard_key (env : ExtEnv) (s : VMState) : VMState × List Effect :=
  if s.status.files.isEmpty then ({ s with pending_discard := none }, [])
  else if s.pending_discard = some s.selected_file then
    discard_selected_file env { s with pending_discard := none }
  else
    let entry := s.status.files.getD s.selected_file default
    ({ s with
        pending_discard := some s.selected_file,
        result_lines := ["Discard changes to \"" ++ entry.display_label
          ++ "\"? (press x again to confirm, any other key cancels)"],
        result_scroll := 0 }, [])

/-- The keys `ViewModel::handle_file_keys` distinguishes
(`src/app/view_model.rs` lines 252-289); `other` stands for every key hitting
the wildcard arm. -/
inductive FileKey where
  | j
  | k
  | s
  | d
  | x
  | other
deriving DecidableEq

/-- `ViewModel::handle_file_keys` from `src/app/view_model.rs` (lines
252-289), with the post-match `selection_changed` block folded into the
`j`/`k` arms. -/
def handle_file_keys (env : ExtEnv) (s : VMState) (key : FileKey) :
    VMState × List Effect :=
  match key with
  | .j =>
      if s.selected_file + 1 < s.status.files.length then
        show_diff_for_selected_file env
          { s with selected_file := s.selected_file + 1, pending_discard := none } true
      else (s, [])
  | .k =>
      if s.selected_file > 0 then
        show_diff_for_selected_file env
          { s with selected_file := s.selected_file - 1, pending_discard := none } true
      else (s, [])
  | .s => toggle_stage_selected_file env { s with pending_discard := none }
  | .d => show_diff_for_selected_file env { s with pending_discard := none } false
  | .x => handle_discard_key env s
  | .other => ({ s with pending_discard := none }, [])

/-- The keys `ViewModel::handle_scroll_keys` distinguishes
(`src/app/view_model.rs` lines 311-325); `other` stands for every key hitting
the wildcard arm (which still runs the clamp). -/
inductive ScrollKey where
  | pageDown
  | pageUp
  | ctrlD
  | ctrlU
  | other
deriving DecidableEq

/-- Rust `usize as i32`: truncate to 32 bits and reinterpret as two's
complement. -/
def i32ofNat (n : Nat) : Int :=
  let m := n % 4294967296
  if m < 2147483648 then (m : Int) else (m : Int) - 4294967296

/-- Rust `i32 as u16`: the low 16 bits of the two's-complement value. -/
def u16ofI32 (z : Int) : Nat :=
  (z % 65536).toNat

/-- The scroll arithmetic of `ViewModel::handle_scroll_keys`
(`src/app/view_model.rs` lines 291-336) for one pane: signed offset update
followed by the clamp to `[0, max_scroll]`, with the source's integer casts
made explicit.  `view_h` and `scroll` are the `u16` fields, `lines_len` the
buffer length. -/
def handle_scroll_step (view_h lines_len scroll : Nat) (key : ScrollKey) : Nat :=
  let max_scroll : Int := i32ofNat (lines_len - view_h)
  let half : Int := (max (view_h / 2) 1 : Nat)
  let full : Int := (max view_h 1 : Nat)
  let s1 : Int :=
    match key with
    | .pageDown => (scroll : Int) + full
    | .pageUp => (scroll : Int) - full
    | .ctrlD => (scroll : Int) + half
    | .ctrlU => (scroll : Int) - half
    | .other => (scroll : Int)
  let s2 := if s1 < 0 then 0 else s1
  let s3 := if s2 > max_scroll then max_scroll else s2
  u16ofI32 s3

/-- `ViewModel::handle_scroll_keys` from `src/app/view_model.rs` lifted to the
view-model state: update the Log or the Result pane's scroll offset. -/
def handle_scroll_keys (s : VMState) (is_log : Bool) (key : ScrollKey) : VMState :=
  if is_log then
    { s with log_scroll :=
        handle_scroll_step s.log_view_height s.log_lines.length s.log_scroll key }
  else
    { s with result_scroll :=
        handle_scroll_step s.result_view_height s.result_lines.length s.result_scroll key }

/-- Rust `str::starts_with`, as an executable char-list prefix check. -/
def startsWithStr (pre s : String) : Bool :=
  pre.toList.isPrefixOf s.toList

/-- `ViewModel::is_commit_needing_editor` from `src/app/view_model.rs` (lines
730-745): a `commit` command without an inline message flag. -/
def is_commit_needing_editor (args_str : String) : Bool :=
  match parse_args_line args_str with
  | [] => false
  | p0 :: rest =>
      if p0 = "commit" then
        !((p0 :: rest).any
          (fun p => p == "-m" || p == "--message" || startsWithStr "--message=" p))
      else false

/-- `ViewModel::requires_interactive` from `src/app/view_model.rs` (lines
723-728); `cfg_interactive` is `cfg.map(|c| c.interactive).unwrap_or(false)`. -/
def requires_interactive (cfg_interactive : Bool) (args_str : String) : Bool :=
  cfg_interactive || is_commit_needing_editor args_str

/-- The two dispatch paths of `ViewModel::run_command`. -/
inductive Route where
  | background
  | interactive
deriving DecidableEq

/-- The routing decision made by the dispatch callers
(`run_selected_command`, `handle_key_cmdline`) combined with the branch of
`ViewModel::run_command` (lines 561-568). -/
def run_command_route (cfg_interactive : Bool) (args_str : String) : Route :=
  if requires_interactive cfg_interactive args_str then Route.interactive
  else Route.background

/-! ## Helper lemmas -/

lemma parse_args_go_ne_empty :
    ∀ (cs : List Char) (args : List String) (cur : String) (q e : Bool),
      (∀ t ∈ args, t ≠ "") → ∀ t ∈ parse_args_go cs args cur q e, t ≠ "" := by
  intro cs
  induction cs with
  | nil =>
      intro args cur q e h t ht
      simp only [parse_args_go] at ht
      split at ht
      · exact h t ht
      · next hcur =>
          rcases List.mem_append.mp ht with h1 | h2
          · exact h t h1
          · rw [List.mem_singleton.mp h2]; exact hcur
  | cons c rest ih =>
      intro args cur q e h t ht
      simp only [parse_args_go] at ht
      split at ht
      · exact ih args (cur.push c) q false h t ht
      · split at ht
        · exact ih args cur q true h t ht
        · split at ht
          · exact ih args cur (!q) e h t ht
          · split at ht
            · split at ht
              · exact ih args cur q e h t ht
              · next hcur =>
                  refine ih (args ++ [cur]) "" q e ?_ t ht
                  intro u hu
                  rcases List.mem_append.mp hu with h1 | h2
                  · exact h u h1
                  · rw [List.mem_singleton.mp h2]; exact hcur
            · exact ih args (cur.push c) q e h t ht

lemma mem_parse_args_line_ne_empty (s : String) :
    ∀ t ∈ parse_args_line s, t ≠ "" :=
  parse_args_go_ne_empty s.toList [] "" false false (by intro t ht; cases ht)

/-! ## C5: tokenizer behaviour -/

/-- C5: `parse_args_line` splits on whitespace outside double quotes, keeps
quoted segments inside one token, treats backslash as an escape only inside
quotes (a backslash outside quotes is a literal character), and never emits
an empty token; in particular `a "b c" d` yields `a`, `b c`, `d` and
`a "b\"c"` yields two tokens whose second is `b"c`. -/
theorem claim_C5_tokenizer :
    parse_args_line "a \"b c\" d" = ["a", "b c", "d"] ∧
    parse_args_line "a \"b\\\"c\"" = ["a", "b\"c"] ∧
    parse_args_line "a\\b c" = ["a\\b", "c"] ∧
    parse_args_line "x\\\"y" = ["x\\y"] ∧
    ∀ s : String, (parse_args_line s).all (fun t => !t.isEmpty) = true := by
  refine ⟨by decide, by decide, by decide, by decide, ?_⟩
  intro s
  rw [List.all_eq_true]
  intro t ht
  have h := mem_parse_args_line_ne_empty s t ht
  simp only [Bool.not_eq_true']
  exact Bool.eq_false_iff.mpr (fun hc => h ((String.isEmpty_iff t).mp hc))

/-! ## C7: stale-result suppression -/

/-- C7: a completion produced after cancellation was requested is never
applied: the worker does not send its result when it observes the flag set at
completion, and `poll_messages` discards a received completion while the flag
is set, leaving the whole interaction state (in particular `is_running`, both
buffers and both scroll offsets) unchanged. -/
theorem claim_C7_stale_result_suppression :
    ∀ (res : CommandResult) (s : VMState) (newStatus : RepoStatus),
      s.cancel_flag = true →
      worker_send true res = [] ∧
      poll_messages s [UiMessage.commandFinished res] newStatus = s := by
  intro res s newStatus h
  refine ⟨rfl, ?_⟩
  simp [poll_messages, h]

def c7_state : VMState :=
  ⟨0, 0, Focus.cmd, Mode.normal, ["l"], ["r"], 0, 0, 1, 1, "", false, true, true,
   ⟨"main", 0, 0, 0, []⟩, none, Option.none⟩

theorem claim_C7_witness :
    c7_state.cancel_flag = true ∧
    (worker_send true ⟨["out"], ["meta"]⟩ = [] ∧
      poll_messages c7_state [UiMessage.commandFinished ⟨["out"], ["meta"]⟩]
        ⟨"main", 0, 0, 0, []⟩ = c7_state) :=
  ⟨rfl, claim_C7_stale_result_suppression ⟨["out"], ["meta"]⟩ c7_state
    ⟨"main", 0, 0, 0, []⟩ rfl⟩

/-! ## C3: double-dispatch rejection -/

/-- C3: a dispatch attempt (background or interactive) made while
`is_running` is true starts no worker and launches no process, appends
exactly one warning line to the result buffer, and leaves every other listed
piece of interaction state (focus, mode, selections, the other buffers,
scroll offsets, `is_running`) unchanged: the resulting state differs from the
input only in the cleared `pending_discard` and the appended warning. -/
theorem claim_C3_dispatch_rejected :
    ∀ (env : ExtEnv) (s : VMState) (args_str : String) (lfs_mode : LfsMode)
      (interactive : Bool),
      s.is_running = true →
      (run_command env s args_str lfs_mode interactive).2 = [] ∧
      (run_command env s args_str lfs_mode interactive).1 =
        { s with
            pending_discard := none,
            result_lines := s.result_lines ++ ["WARN: already running command"] } := by
  intro env s args_str lfs_mode interactive h
  cases interactive <;>
    simp [run_command, run_command_async, run_command_interactive, h]

def c3_state : VMState :=
  ⟨2, 1, Focus.files, Mode.normal, ["l"], ["r"], 3, 4, 5, 6, "c", false, true, false,
   ⟨"dev", 1, 1, 0, [⟨" M", "a"⟩, ⟨"M ", "b"⟩]⟩, some 1, Option.none⟩

def c3_env : ExtEnv :=
  ⟨fun _ => ProcOutcome.ok [] [] 0, Except.ok 0, ⟨"dev", 0, 0, 0, []⟩, false⟩

theorem claim_C3_witness :
    c3_state.is_running = true ∧
    ((run_command c3_env c3_state "status" LfsMode.none false).2 = [] ∧
      (run_command c3_env c3_state "status" LfsMode.none false).1 =
        { c3_state with
            pending_discard := none,
            result_lines := c3_state.result_lines ++ ["WARN: already running command"] }) :=
  ⟨rfl, claim_C3_dispatch_rejected c3_env c3_state "status" LfsMode.none false rfl⟩

/-! ## C9: interactive routing -/

/-- C9: a dispatched command is routed to the blocking interactive
terminal-handoff path, rather than the background runner, exactly when its
configuration sets the explicit interactive flag, or its first token is
`commit` and no token equals `-m` or `--message` or starts with
`--message=`. -/
theorem claim_C9_interactive_routing :
    ∀ (cfg_interactive : Bool) (args_str : String),
      run_command_route cfg_interactive args_str = Route.interactive ↔
        (cfg_interactive = true ∨
          ((parse_args_line args_str).head? = some "commit" ∧
            ∀ p ∈ parse_args_line args_str,
              p ≠ "-m" ∧ p ≠ "--message" ∧ startsWithStr "--message=" p = false)) := by
  intro b args_str
  unfold run_command_route requires_interactive is_commit_needing_editor
  rcases hp : parse_args_line args_str with _ | ⟨p0, rest⟩
  · cases b <;> simp
  · by_cases hc : p0 = "commit"
    · subst hc
      cases b <;>
        simp [List.any_eq_true, Bool.not_eq_true, Bool.or_eq_true, beq_iff_eq,
          not_or, Bool.not_eq_true']
    · cases b <;> simp [hc, Ne.symm hc]

/-! ## C8: scroll offsets stay clamped -/

lemma clamp_bound (maxs s1 : Int) (h0 : 0 ≤ maxs) (hm : maxs < 65536) :
    u16ofI32 (if (if s1 < 0 then 0 else s1) > maxs then maxs
      else (if s1 < 0 then 0 else s1)) ≤ maxs.toNat := by
  set s2 := if s1 < 0 then 0 else s1 with hs2
  have h2 : 0 ≤ s2 := by rw [hs2]; split_ifs <;> omega
  have h3 : 0 ≤ (if s2 > maxs then maxs else s2) ∧
      (if s2 > maxs then maxs else s2) ≤ maxs := by split_ifs <;> omega
  unfold u16ofI32
  rw [Int.emod_eq_of_lt h3.1 (by omega)]
  omega

lemma handle_scroll_step_le (view_h lines_len scroll : Nat) (key : ScrollKey) :
    handle_scroll_step view_h lines_len scroll key ≤ lines_len - view_h := by
  have hlt : ∀ z : Int, (z.emod 65536).toNat < 65536 := by
    intro z
    have h1 : z.emod 65536 < 65536 := Int.emod_lt_of_pos z (by omega)
    omega
  rcases Nat.lt_or_ge (lines_len - view_h) 65536 with hd | hd
  · have hi : i32ofNat (lines_len - view_h) = ((lines_len - view_h : Nat) : Int) := by
      unfold i32ofNat
      have h32 : (lines_len - view_h) % 4294967296 = lines_len - view_h :=
        Nat.mod_eq_of_lt (by omega)
      simp only [h32]
      rw [if_pos (by omega)]
    have h0 : (0 : Int) ≤ ((lines_len - view_h : Nat) : Int) := Int.natCast_nonneg _
    have hm : ((lines_len - view_h : Nat) : Int) < 65536 := by exact_mod_cast hd
    unfold handle_scroll_step
    rw [hi]
    cases key <;>
      (dsimp only; refine le_trans (clamp_bound _ _ h0 hm) ?_; simp)
  · unfold handle_scroll_step u16ofI32
    cases key <;> exact le_trans (Nat.le_of_lt (hlt _)) (by omega)

lemma foldl_scroll_step_le (keys : List ScrollKey) :
    ∀ (view_h lines_len scroll : Nat), keys ≠ [] →
      keys.foldl (handle_scroll_step view_h lines_len) scroll ≤ lines_len - view_h := by
  induction keys with
  | nil => intro _ _ _ h; exact absurd rfl h
  | cons k rest ih =>
      intro view_h lines_len scroll _
      cases rest with
      | nil => simpa using handle_scroll_step_le view_h lines_len scroll k
      | cons k2 r2 =>
          simp only [List.foldl_cons]
          exact ih view_h lines_len _ (by simp)

lemma foldl_handle_scroll_keys_log (keys : List ScrollKey) :
    ∀ s : VMState,
      keys.foldl (fun st k => handle_scroll_keys st true k) s =
        { s with
            log_scroll := keys.foldl
              (handle_scroll_step s.log_view_height s.log_lines.length)
              s.log_scroll } := by
  induction keys with
  | nil => intro s; rfl
  | cons k rest ih =>
      intro s
      simp only [List.foldl_cons]
      rw [ih]
      rfl

lemma foldl_handle_scroll_keys_result (keys : List ScrollKey) :
    ∀ s : VMState,
      keys.foldl (fun st k => handle_scroll_keys st false k) s =
        { s with
            result_scroll := keys.foldl
              (handle_scroll_step s.result_view_height s.result_lines.length)
              s.result_scroll } := by
  induction keys with
  | nil => intro s; rfl
  | cons k rest ih =>
      intro s
      simp only [List.foldl_cons]
      rw [ih]
      rfl

/-- C8: for both the Log and the Result pane, after any nonempty sequence of
PageUp / PageDown / Ctrl-D / Ctrl-U operations (and any other key hitting the
clamping wildcard arm), the pane's scroll offset lies within
`[0, max 0 (N - viewport)]`, where `N` is the pane's line count and
`viewport` its view height (the lower bound is inherent to `Nat`). -/
theorem claim_C8_scroll_clamped :
    ∀ (s : VMState) (keys : List ScrollKey), keys ≠ [] →
      (keys.foldl (fun st k => handle_scroll_keys st true k) s).log_scroll
          ≤ s.log_lines.length - s.log_view_height ∧
      (keys.foldl (fun st k => handle_scroll_keys st false k) s).result_scroll
          ≤ s.result_lines.length - s.result_view_height := by
  intro s keys hk
  constructor
  · rw [foldl_handle_scroll_keys_log]
    exact foldl_scroll_step_le keys _ _ _ hk
  · rw [foldl_handle_scroll_keys_result]
    exact foldl_scroll_step_le keys _ _ _ hk

def c8_state : VMState :=
  ⟨0, 0, Focus.log, Mode.normal, ["a", "b", "c", "d", "e", "f"], ["r"], 0, 0, 2, 2,
   "", false, false, false, ⟨"main", 0, 0, 0, []⟩, none, Option.none⟩

theorem claim_C8_witness :
    ([ScrollKey.pageDown, ScrollKey.pageDown, ScrollKey.ctrlU] ≠
        ([] : List ScrollKey)) ∧
    (([ScrollKey.pageDown, ScrollKey.pageDown, ScrollKey.ctrlU].foldl
        (fun st k => handle_scroll_keys st true k) c8_state).log_scroll
          ≤ c8_state.log_lines.length - c8_state.log_view_height ∧
      ([ScrollKey.pageDown, ScrollKey.pageDown, ScrollKey.ctrlU].foldl
        (fun st k => handle_scroll_keys st false k) c8_state).result_scroll
          ≤ c8_state.result_lines.length - c8_state.result_view_height) :=
  ⟨by decide, claim_C8_scroll_clamped c8_state
    [ScrollKey.pageDown, ScrollKey.pageDown, ScrollKey.ctrlU] (by decide)⟩

/-! ## C4: status-line classification -/

lemma statusLineStep_eq (st : RepoStatus) (line : String) :
    statusLineStep st line =
      { st with
          staged := st.staged + (statusLineClass line).1,
          unstaged := st.unstaged + (statusLineClass line).2.1,
          untracked := st.untracked + (statusLineClass line).2.2,
          files := st.files ++ (statusLineFile line).toList } := by
  unfold statusLineStep statusLineClass statusLineFile
  dsimp only
  split_ifs <;> simp

lemma load_repo_status_foldl (lines : List String) :
    ∀ st : RepoStatus,
      lines.foldl statusLineStep st =
        { st with
            staged := st.staged + (lines.map (fun l => (statusLineClass l).1)).sum,
            unstaged := st.unstaged
              + (lines.map (fun l => (statusLineClass l).2.1)).sum,
            untracked := st.untracked
              + (lines.map (fun l => (statusLineClass l).2.2)).sum,
            files := st.files ++ lines.filterMap statusLineFile } := by
  induction lines with
  | nil => intro st; simp
  | cons l ls ih =>
      intro st
      simp only [List.foldl_cons, statusLineStep_eq, ih, List.map_cons, List.sum_cons,
        List.filterMap_cons]
      cases hf : statusLineFile l <;>
        simp [hf, Nat.add_assoc, Nat.add_comm, Nat.add_left_comm, List.append_assoc]

/-- C4: every status line of length at least 3 contributes to the
staged/unstaged/untracked counts as a pure function of its first two
characters (`statusLineClass`): code `??` increments only the untracked
count, otherwise a non-space character at position 0 increments staged and a
non-space character at position 1 increments unstaged; `RepoFile` entries are
collected in input order (`statusLineFile`), and lines shorter than 3
characters contribute neither a file nor a count. -/
theorem claim_C4_status_classification :
    ∀ (branch : String) (lines : List String),
      (load_repo_status branch lines).branch = branch ∧
      (load_repo_status branch lines).staged =
        (lines.map (fun l => (statusLineClass l).1)).sum ∧
      (load_repo_status branch lines).unstaged =
        (lines.map (fun l => (statusLineClass l).2.1)).sum ∧
      (load_repo_status branch lines).untracked =
        (lines.map (fun l => (statusLineClass l).2.2)).sum ∧
      (load_repo_status branch lines).files = lines.filterMap statusLineFile ∧
      (∀ l₁ l₂ : String, l₁.toList.take 2 = l₂.toList.take 2 →
        3 ≤ l₁.toList.length → 3 ≤ l₂.toList.length →
        statusLineClass l₁ = statusLineClass l₂) ∧
      (∀ l : String, l.toList.length < 3 →
        statusLineClass l = (0, 0, 0) ∧ statusLineFile l = none) := by
  intro branch lines
  have h := load_repo_status_foldl lines
    { branch := branch, staged := 0, unstaged := 0, untracked := 0, files := [] }
  unfold load_repo_status
  rw [h]
  refine ⟨rfl, by simp, by simp, by simp, by simp, ?_, ?_⟩
  · intro l₁ l₂ htake h1 h2
    unfold statusLineClass
    dsimp only
    rw [htake, if_neg (Nat.not_lt.mpr h1), if_neg (Nat.not_lt.mpr h2)]
  · intro l hl
    constructor
    · unfold statusLineClass; dsimp only; rw [if_pos hl]
    · unfold statusLineFile; dsimp only; rw [if_pos hl]

theorem claim_C4_witness :
    (load_repo_status "main" ["M  a.txt", " M b.txt", "?? c", "R  x -> y", "zz"]).staged = 2 ∧
    (load_repo_status "main" ["M  a.txt", " M b.txt", "?? c", "R  x -> y", "zz"]).unstaged = 1 ∧
    (load_repo_status "main" ["M  a.txt", " M b.txt", "?? c", "R  x -> y", "zz"]).untracked = 1 ∧
    statusLineClass "?? here" = statusLineClass "?? there" := by
  have h := claim_C4_status_classification "main"
    ["M  a.txt", " M b.txt", "?? c", "R  x -> y", "zz"]
  refine ⟨?_, ?_, ?_, ?_⟩
  · rw [h.2.1]; decide
  · rw [h.2.2.1]; decide
  · rw [h.2.2.2.1]; decide
  · exact (claim_C4_status_classification "main" []).2.2.2.2.2.1 "?? here" "?? there"
      (by decide) (by decide) (by decide)

/-! ## C6: diff invocation building -/

lemma substFiles_spec (operands : List String) :
    ∀ l : List String,
      (substFiles operands l).1 =
        l.flatMap (fun a => if a = "{files}" then operands else [a]) ∧
      ((substFiles operands l).2 = true ↔ "{files}" ∈ l) := by
  intro l
  induction l with
  | nil => simp [substFiles]
  | cons a rest ih =>
      unfold substFiles
      by_cases ha : a = "{files}"
      · simp [ha, ih.1, ih.2, List.flatMap_cons]
      · simp [ha, Ne.symm ha, ih.1, ih.2, List.flatMap_cons]

lemma flatMap_id_of_not_mem (operands : List String) :
    ∀ l : List String, "{files}" ∉ l →
      l.flatMap (fun a => if a = "{files}" then operands else [a]) = l := by
  intro l
  induction l with
  | nil => intro _; rfl
  | cons a rest ih =>
      intro hmem
      simp only [List.mem_cons, not_or] at hmem
      simp [List.flatMap_cons, Ne.symm hmem.1, ih hmem.2]

lemma operands_ne_nil (f : RepoFile) : f.operands ≠ [] := by
  unfold RepoFile.operands
  dsimp only
  split_ifs with h
  · exact List.ne_nil_of_length_pos (by omega)
  · simp

lemma clean_operands_ne_nil (f : RepoFile) : clean_operands f ≠ [] := by
  unfold clean_operands
  simpa using operands_ne_nil f

/-- C6: every `{files}` placeholder token of the configured diff template is
replaced by the file's operands; if no placeholder occurs, a `--` separator
is appended (only when not already present among the template's tokens)
followed by the operands; and for a selected file with status `??` the
template is bypassed: the invocation issued by the diff preview is
`diff --no-index -- <null-device> <path>`, with `NUL` as the null device on
Windows and `/dev/null` otherwise. -/
theorem claim_C6_diff_invocation :
    (∀ (tpl : Option String) (operands : List String),
      "{files}" ∈ diffTemplateTokens tpl →
        (build_diff_command tpl operands).1 =
          (diffTemplateTokens tpl).flatMap
            (fun a => if a = "{files}" then operands else [a])) ∧
    (∀ (tpl : Option String) (operands : List String),
      "{files}" ∉ diffTemplateTokens tpl →
        (build_diff_command tpl operands).1 =
          diffTemplateTokens tpl
            ++ (if (diffTemplateTokens tpl).contains "--" = true then [] else ["--"])
            ++ operands) ∧
    (∀ (env : ExtEnv) (s : VMState) (is_auto : Bool),
      s.status.files.isEmpty = false → s.is_running = false →
      (s.status.files.getD s.selected_file default).status = "??" →
        (show_diff_for_selected_file env s is_auto).2 =
          [Effect.runDiff (["diff", "--no-index", "--",
              if env.is_windows then "NUL" else "/dev/null"]
            ++ clean_operands (s.status.files.getD s.selected_file default))]) := by
  refine ⟨?_, ?_, ?_⟩
  · intro tpl operands hmem
    unfold build_diff_command
    dsimp only
    rw [if_pos ((substFiles_spec operands (diffTemplateTokens tpl)).2.mpr hmem)]
    exact (substFiles_spec operands (diffTemplateTokens tpl)).1
  · intro tpl operands hmem
    unfold build_diff_command
    dsimp only
    have h2 : (substFiles operands (diffTemplateTokens tpl)).2 = false := by
      rcases hb : (substFiles operands (diffTemplateTokens tpl)).2 with _ | _
      · rfl
      · exact absurd ((substFiles_spec operands (diffTemplateTokens tpl)).2.mp hb) hmem
    rw [h2]
    have h1 : (substFiles operands (diffTemplateTokens tpl)).1 = diffTemplateTokens tpl := by
      rw [(substFiles_spec operands (diffTemplateTokens tpl)).1]
      exact flatMap_id_of_not_mem operands (diffTemplateTokens tpl) hmem
    rw [h1]
    simp only [Bool.false_eq_true, if_false]
    split_ifs <;> simp
  · intro env s is_auto hne hrun hst
    have hops : (clean_operands (s.status.files.getD s.selected_file default)).isEmpty
        = false := by
      simpa using clean_operands_ne_nil (s.status.files.getD s.selected_file default)
    simp only [List.getD_eq_getElem?_getD] at hst hops
    unfold show_diff_for_selected_file devNull
    dsimp only
    rcases hout : env.diffOutcome (["diff", "--no-index", "--",
        if env.is_windows then "NUL" else "/dev/null"]
      ++ clean_operands (s.status.files.getD s.selected_file default))
      with ⟨stdout, stderr, code⟩ | e <;>
      (simp only [List.getD_eq_getElem?_getD, List.cons_append, List.nil_append] at hout ⊢;
       simp [hne, hrun, hops, hst, hout, List.getD_eq_getElem?_getD])

def c6_state : VMState :=
  ⟨0, 0, Focus.files, Mode.normal, [], [], 0, 0, 1, 1, "", false, false, false,
   ⟨"main", 0, 0, 1, [⟨"??", "new.txt"⟩]⟩, none, Option.none⟩

def c6_env : ExtEnv :=
  ⟨fun _ => ProcOutcome.ok [] [] 0, Except.ok 0, ⟨"main", 0, 0, 0, []⟩, false⟩

theorem claim_C6_witness :
    ("{files}" ∈ diffTemplateTokens (some "diff {files} HEAD") ∧
      (build_diff_command (some "diff {files} HEAD") ["a"]).1 =
        (diffTemplateTokens (some "diff {files} HEAD")).flatMap
          (fun a => if a = "{files}" then ["a"] else [a])) ∧
    ("{files}" ∉ diffTemplateTokens (some "difftool HEAD") ∧
      (build_diff_command (some "difftool HEAD") ["a"]).1 =
        diffTemplateTokens (some "difftool HEAD")
          ++ (if (diffTemplateTokens (some "difftool HEAD")).contains "--" = true
              then [] else ["--"]) ++ ["a"]) ∧
    (c6_state.status.files.isEmpty = false ∧ c6_state.is_running = false ∧
      (c6_state.status.files.getD c6_state.selected_file default).status = "??" ∧
      (show_diff_for_selected_file c6_env c6_state false).2 =
        [Effect.runDiff (["diff", "--no-index", "--",
            if c6_env.is_windows then "NUL" else "/dev/null"]
          ++ clean_operands (c6_state.status.files.getD c6_state.selected_file default))]) :=
  ⟨⟨by decide, claim_C6_diff_invocation.1 (some "diff {files} HEAD") ["a"] (by decide)⟩,
   ⟨by decide, claim_C6_diff_invocation.2.1 (some "difftool HEAD") ["a"] (by decide)⟩,
   ⟨by decide, rfl, by decide,
    claim_C6_diff_invocation.2.2 c6_env c6_state false rfl rfl (by decide)⟩⟩

/-! ## Preservation lemmas for the file-panel handlers -/

lemma show_diff_preserves (env : ExtEnv) (s : VMState) (is_auto : Bool) :
    (show_diff_for_selected_file env s is_auto).1.selected_file = s.selected_file ∧
    (show_diff_for_selected_file env s is_auto).1.status = s.status ∧
    (show_diff_for_selected_file env s is_auto).1.pending_discard = s.pending_discard := by
  unfold show_diff_for_selected_file
  dsimp only
  split_ifs <;> try exact ⟨rfl, rfl, rfl⟩
  all_goals split <;> exact ⟨rfl, rfl, rfl⟩

lemma run_command_false_preserves (env : ExtEnv) (s : VMState) (args_str : String)
    (lfs_mode : LfsMode) :
    (run_command env s args_str lfs_mode false).1.selected_file = s.selected_file ∧
    (run_command env s args_str lfs_mode false).1.status = s.status ∧
    (run_command env s args_str lfs_mode false).1.pending_discard = none := by
  unfold run_command run_command_async
  dsimp only
  split_ifs <;> first | exact ⟨rfl, rfl, rfl⟩ | simp_all

lemma toggle_stage_preserves (env : ExtEnv) (s : VMState) :
    (toggle_stage_selected_file env s).1.selected_file = s.selected_file ∧
    (toggle_stage_selected_file env s).1.status = s.status ∧
    ((toggle_stage_selected_file env s).1.pending_discard = s.pending_discard ∨
      (toggle_stage_selected_file env s).1.pending_discard = none) := by
  unfold toggle_stage_selected_file
  dsimp only
  split_ifs <;> first
    | exact ⟨rfl, rfl, Or.inl rfl⟩
    | exact ⟨(run_command_false_preserves env s _ LfsMode.none).1,
        (run_command_false_preserves env s _ LfsMode.none).2.1,
        Or.inr (run_command_false_preserves env s _ LfsMode.none).2.2⟩

lemma discard_selected_file_preserves (env : ExtEnv) (s : VMState) :
    (discard_selected_file env s).1.selected_file = s.selected_file ∧
    (discard_selected_file env s).1.status = s.status ∧
    ((discard_selected_file env s).1.pending_discard = s.pending_discard ∨
      (discard_selected_file env s).1.pending_discard = none) := by
  unfold discard_selected_file
  dsimp only
  split_ifs <;> first
    | exact ⟨rfl, rfl, Or.inl rfl⟩
    | exact ⟨(run_command_false_preserves env s _ LfsMode.none).1,
        (run_command_false_preserves env s _ LfsMode.none).2.1,
        Or.inr (run_command_false_preserves env s _ LfsMode.none).2.2⟩

lemma handle_discard_key_preserves (env : ExtEnv) (s : VMState) :
    (handle_discard_key env s).1.selected_file = s.selected_file ∧
    (handle_discard_key env s).1.status = s.status := by
  unfold handle_discard_key
  dsimp only
  split_ifs <;> try exact ⟨rfl, rfl⟩
  have h := discard_selected_file_preserves env { s with pending_discard := none }
  exact ⟨h.1, h.2.1⟩

/-! ## C10: the selected file index stays valid -/

/-- The invariant of the selected file index: a valid index into the current
file list, or `0` when the list is empty. -/
def file_sel_invariant (s : VMState) : Prop :=
  s.selected_file < s.status.files.length ∨
    (s.status.files = [] ∧ s.selected_file = 0)

/-- C10: the selected file index is always a valid index into the current
file list, or 0 when the list is empty: every status refresh (re)establishes
the invariant, clamping a too-large selection to the last valid index and
resetting it to 0 for an empty list, and every file-panel key (in particular
`j`/`k` movement, which clamps at both ends) preserves it. -/
theorem claim_C10_selection_invariant :
    (∀ (s : VMState) (newStatus : RepoStatus),
      file_sel_invariant (refresh_repo_status s newStatus)) ∧
    (∀ (env : ExtEnv) (s : VMState) (key : FileKey),
      file_sel_invariant s → file_sel_invariant (handle_file_keys env s key).1) := by
  constructor
  · intro s newStatus
    unfold file_sel_invariant refresh_repo_status
    dsimp only
    by_cases h1 : s.selected_file ≥ newStatus.files.length ∧
        ¬newStatus.files.isEmpty = true
    · rw [if_pos h1]
      by_cases hemp : newStatus.files.isEmpty = true
      · rw [if_pos hemp]
        right
        exact ⟨List.isEmpty_iff.mp hemp, rfl⟩
      · rw [if_neg hemp]
        dsimp only
        left
        have hne : newStatus.files ≠ [] := fun hc => hemp (by simp [hc])
        have hlen : 0 < newStatus.files.length := List.length_pos.mpr hne
        omega
    · rw [if_neg h1]
      by_cases hemp : newStatus.files.isEmpty = true
      · rw [if_pos hemp]
        right
        exact ⟨List.isEmpty_iff.mp hemp, rfl⟩
      · rw [if_neg hemp]
        dsimp only
        left
        rw [not_and_or] at h1
        rcases h1 with h1 | h1
        · omega
        · exact absurd hemp h1
  · intro env s key hinv
    unfold file_sel_invariant at hinv ⊢
    cases key with
    | j =>
        unfold handle_file_keys
        dsimp only
        split_ifs with h
        · have hp := show_diff_preserves env
            { s with selected_file := s.selected_file + 1, pending_discard := none } true
          rw [hp.1, hp.2.1]
          left
          exact h
        · exact hinv
    | k =>
        unfold handle_file_keys
        dsimp only
        split_ifs with h
        · have hp := show_diff_preserves env
            { s with selected_file := s.selected_file - 1, pending_discard := none } true
          rw [hp.1, hp.2.1]
          dsimp only
          rcases hinv with hlt | ⟨_, hz⟩
          · left; omega
          · omega
        · exact hinv
    | s =>
        unfold handle_file_keys
        have hp := toggle_stage_preserves env { s with pending_discard := none }
        rw [hp.1, hp.2.1]
        exact hinv
    | d =>
        unfold handle_file_keys
        have hp := show_diff_preserves env { s with pending_discard := none } false
        rw [hp.1, hp.2.1]
        exact hinv
    | x =>
        unfold handle_file_keys
        have hp := handle_discard_key_preserves env s
        rw [hp.1, hp.2]
        exact hinv
    | other =>
        exact hinv

def c10_state : VMState :=
  ⟨0, 5, Focus.files, Mode.normal, [], [], 0, 0, 1, 1, "", false, false, false,
   ⟨"main", 0, 2, 0, [⟨" M", "a"⟩, ⟨" M", "b"⟩]⟩, none, Option.none⟩

def c10_env : ExtEnv :=
  ⟨fun _ => ProcOutcome.ok [] [] 0, Except.ok 0, ⟨"main", 0, 1, 0, [⟨" M", "a"⟩]⟩, false⟩

def c10_state2 : VMState :=
  ⟨0, 0, Focus.files, Mode.normal, [], [], 0, 0, 1, 1, "", false, false, false,
   ⟨"main", 0, 2, 0, [⟨" M", "a"⟩, ⟨" M", "b"⟩]⟩, none, Option.none⟩

theorem claim_C10_witness :
    file_sel_invariant (refresh_repo_status c10_state ⟨"main", 0, 1, 0, [⟨" M", "a"⟩]⟩) ∧
    (file_sel_invariant c10_state2 ∧
      file_sel_invariant (handle_file_keys c10_env c10_state2 FileKey.j).1) :=
  ⟨claim_C10_selection_invariant.1 c10_state ⟨"main", 0, 1, 0, [⟨" M", "a"⟩]⟩,
   by unfold file_sel_invariant; decide,
   claim_C10_selection_invariant.2 c10_env c10_state2 FileKey.j
     (by unfold file_sel_invariant; decide)⟩

/-! ## C1: the two-step discard confirmation -/

lemma str_ne_empty_of_data_cons {s : String} {c : Char} {t : List Char}
    (h : s.data = c :: t) : s ≠ "" := by
  intro hc
  rw [String.ext_iff] at hc
  rw [h] at hc
  cases hc

lemma quote_wrap_ne_empty (x : String) : "\"" ++ x ++ "\"" ≠ "" := by
  refine str_ne_empty_of_data_cons (c := '"') (t := x.data ++ ['"']) ?_
  simp [String.data_append]

lemma joinSpace_cons_ne_empty (h : String) (t : List String) (hh : h ≠ "") :
    joinSpace (h :: t) ≠ "" := by
  cases t with
  | nil => simpa [joinSpace] using hh
  | cons b r =>
      unfold joinSpace
      intro hc
      rw [String.ext_iff] at hc
      simp [String.data_append] at hc

lemma quoted_operands_ne_empty (f : RepoFile) : quoted_operands f ≠ "" := by
  unfold quoted_operands
  rcases hop : f.operands with _ | ⟨a, rest⟩
  · exact absurd hop (operands_ne_nil f)
  · simp only [List.map_cons]
    exact joinSpace_cons_ne_empty _ _ (quote_wrap_ne_empty _)

lemma handle_discard_key_arm (env : ExtEnv) (s : VMState)
    (hne : s.status.files.isEmpty = false)
    (hpend : ¬s.pending_discard = some s.selected_file) :
    (handle_discard_key env s).1.pending_discard = some s.selected_file ∧
    (handle_discard_key env s).2 = [] := by
  unfold handle_discard_key
  rw [if_neg (by simp [hne]), if_neg hpend]
  exact ⟨rfl, rfl⟩

lemma handle_discard_key_execute (env : ExtEnv) (s : VMState)
    (hne : s.status.files.isEmpty = false)
    (hpend : s.pending_discard = some s.selected_file)
    (hrun : s.is_running = false) :
    (handle_discard_key env s).2 =
      [Effect.spawnAsync (discard_cmd (s.status.files.getD s.selected_file default))
        LfsMode.none] ∧
    (handle_discard_key env s).1.pending_discard = none := by
  unfold handle_discard_key discard_selected_file run_command run_command_async
  rw [if_neg (by simp [hne]), if_pos hpend]
  try dsimp only
  rw [if_neg (by simp [hne]),
    if_neg (quoted_operands_ne_empty (s.status.files.getD s.selected_file default)),
    if_neg (by simp : ¬((false : Bool) = true))]
  try dsimp only
  rw [if_neg (by simp [hrun])]
  exact ⟨rfl, rfl⟩

def c1_env : ExtEnv :=
  ⟨fun _ => ProcOutcome.ok [] [] 0, Except.ok 0, ⟨"main", 0, 0, 0, []⟩, false⟩

def c1_state : VMState :=
  ⟨0, 0, Focus.files, Mode.normal, [], [], 0, 0, 1, 1, "", false, false, false,
   ⟨"main", 0, 1, 0, [⟨" M", "a.txt"⟩]⟩, none, Option.none⟩

def c1_running_state : VMState :=
  ⟨0, 0, Focus.files, Mode.normal, [], [], 0, 0, 1, 1, "", false, true, false,
   ⟨"main", 0, 1, 0, [⟨" M", "a.txt"⟩]⟩, some 0, Option.none⟩

/-- C1 as stated is false on the code: arming `pending_discard` with `x` and
then pressing `j` while the last file is selected does not clear
`pending_discard` (no selection change happens, and the `j` arm never clears
it), so the next `x` executes the destructive command instead of re-arming;
moreover a second `x` press made while a background command is running issues
no destructive command at all (the dispatch is rejected with a warning). -/
theorem claim_C1_counterexample :
    ((handle_file_keys c1_env c1_state FileKey.x).1.pending_discard = some 0) ∧
    ((handle_file_keys c1_env c1_state FileKey.x).2 = []) ∧
    ((handle_file_keys c1_env
        ((handle_file_keys c1_env c1_state FileKey.x).1) FileKey.j).1.pending_discard
      = some 0) ∧
    ((handle_file_keys c1_env
        ((handle_file_keys c1_env
          ((handle_file_keys c1_env c1_state FileKey.x).1) FileKey.j).1) FileKey.x).2
      = [Effect.spawnAsync "restore --staged --worktree -- \"a.txt\"" LfsMode.none]) ∧
    ((handle_file_keys c1_env c1_running_state FileKey.x).2 = []) := by
  refine ⟨by decide, by decide, by decide, by decide, by decide⟩

/-- C1 amended: with a nonempty file list, a first `x` press (no discard
pending for the selected index) arms `pending_discard` and issues no git
command; a second `x` press on the same index while no background command is
running issues exactly one destructive command (`clean -fd` for status `??`,
`restore --staged --worktree` otherwise) and clears `pending_discard`; the
`s` and `d` keys, every unrecognized key, and every selection-changing
`j`/`k` movement clear `pending_discard`; but a `j` press at the last index
or a `k` press at index 0 changes nothing, so the armed state survives and a
subsequent `x` executes rather than re-arms. -/
theorem claim_C1_discard_two_step :
    ∀ (env : ExtEnv) (s : VMState),
      s.status.files.isEmpty = false →
      ((¬s.pending_discard = some s.selected_file →
        (handle_file_keys env s FileKey.x).1.pending_discard = some s.selected_file ∧
        (handle_file_keys env s FileKey.x).2 = []) ∧
      (s.pending_discard = some s.selected_file → s.is_running = false →
        (handle_file_keys env s FileKey.x).2 =
          [Effect.spawnAsync
            (discard_cmd (s.status.files.getD s.selected_file default)) LfsMode.none] ∧
        (handle_file_keys env s FileKey.x).1.pending_discard = none) ∧
      ((handle_file_keys env s FileKey.s).1.pending_discard = none) ∧
      ((handle_file_keys env s FileKey.d).1.pending_discard = none) ∧
      ((handle_file_keys env s FileKey.other).1.pending_discard = none) ∧
      (s.selected_file + 1 < s.status.files.length →
        (handle_file_keys env s FileKey.j).1.pending_discard = none) ∧
      (0 < s.selected_file →
        (handle_file_keys env s FileKey.k).1.pending_discard = none) ∧
      (¬s.selected_file + 1 < s.status.files.length →
        handle_file_keys env s FileKey.j = (s, [])) ∧
      (¬0 < s.selected_file →
        handle_file_keys env s FileKey.k = (s, []))) := by
  intro env s hne
  refine ⟨?_, ?_, ?_, ?_, ?_, ?_, ?_, ?_, ?_⟩
  · intro hpend
    exact handle_discard_key_arm env s hne hpend
  · intro hpend hrun
    exact handle_discard_key_execute env s hne hpend hrun
  · have hp := toggle_stage_preserves env { s with pending_discard := none }
    unfold handle_file_keys
    rcases hp.2.2 with h | h <;> exact h
  · have hp := show_diff_preserves env { s with pending_discard := none } false
    unfold handle_file_keys
    exact hp.2.2
  · rfl
  · intro hmove
    have hp := show_diff_preserves env
      { s with selected_file := s.selected_file + 1, pending_discard := none } true
    unfold handle_file_keys
    rw [if_pos hmove]
    exact hp.2.2
  · intro hmove
    have hp := show_diff_preserves env
      { s with selected_file := s.selected_file - 1, pending_discard := none } true
    unfold handle_file_keys
    rw [if_pos hmove]
    exact hp.2.2
  · intro hstay
    unfold handle_file_keys
    rw [if_neg hstay]
  · intro hstay
    unfold handle_file_keys
    rw [if_neg hstay]

def c1_armed_state : VMState :=
  ⟨0, 0, Focus.files, Mode.normal, [], [], 0, 0, 1, 1, "", false, false, false,
   ⟨"main", 0, 1, 0, [⟨" M", "a.txt"⟩]⟩, some 0, Option.none⟩

theorem claim_C1_witness :
    c1_armed_state.status.files.isEmpty = false ∧
    (c1_armed_state.pending_discard = some c1_armed_state.selected_file →
      c1_armed_state.is_running = false →
      (handle_file_keys c1_env c1_armed_state FileKey.x).2 =
        [Effect.spawnAsync
          (discard_cmd (c1_armed_state.status.files.getD c1_armed_state.selected_file
            default)) LfsMode.none] ∧
      (handle_file_keys c1_env c1_armed_state FileKey.x).1.pending_discard = none) :=
  ⟨rfl, (claim_C1_discard_two_step c1_env c1_armed_state rfl).2.1⟩

/-! ## C2: cancellation before the LFS follow-up stage -/

/-- C2 amended: when the cancellation flag is set at the between-stages
check, the runner appends the `<canceled before LFS stage>` note to the
result metadata, keeps the primary output in the log buffer, and returns
without invoking the follow-up stage; but that `CommandResult` is suppressed
end-to-end rather than shown: the worker does not send it while the flag is
set, and `poll_messages` discards any completion received while the flag is
set, so the user-visible buffers keep the cancellation notice and contain
neither the primary output nor a follow-up section. -/
theorem claim_C2_cancel_before_lfs :
    ∀ (env : RunEnv) (args_str : String) (stdout stderr : List String) (code : Int),
      env.cancelAtLfsCheck = true →
      env.primaryOutcome = ProcOutcome.ok stdout stderr code →
      ¬parse_args_line args_str = [] →
      (run_git_with_lfs env args_str LfsMode.pull).2 = false ∧
      (run_git_with_lfs env args_str LfsMode.pull).1.log_lines =
        (if stdout.isEmpty then ["<no stdout from git>"] else stdout) ∧
      (run_git_with_lfs env args_str LfsMode.pull).1.result_lines =
        ["$ git " ++ args_str, "git exit code: " ++ toString code]
          ++ (if stderr.isEmpty then [] else "--- git stderr ---" :: stderr)
          ++ ["<canceled before LFS stage>"] ∧
      worker_send true (run_git_with_lfs env args_str LfsMode.pull).1 = [] ∧
      (∀ (s : VMState) (newStatus : RepoStatus), s.cancel_flag = true →
        poll_messages s
          [UiMessage.commandFinished (run_git_with_lfs env args_str LfsMode.pull).1]
          newStatus = s) := by
  intro env args_str stdout stderr code hc hp hargs
  have hrun : run_git_with_lfs env args_str LfsMode.pull =
      (⟨if stdout.isEmpty then ["<no stdout from git>"] else stdout,
        ["$ git " ++ args_str, "git exit code: " ++ toString code]
          ++ (if stderr.isEmpty then [] else "--- git stderr ---" :: stderr)
          ++ ["<canceled before LFS stage>"]⟩, false) := by
    unfold run_git_with_lfs
    rw [if_neg (by simpa using hargs), hp]
    dsimp only
    rw [if_pos hc]
    simp
  rw [hrun]
  refine ⟨rfl, rfl, rfl, rfl, ?_⟩
  intro s newStatus hflag
  simp [poll_messages, hflag]

def c2_env : RunEnv := ⟨ProcOutcome.ok ["hello"] [] 0, true, ProcOutcome.ok [] [] 0⟩

def c2_state0 : VMState :=
  ⟨0, 0, Focus.cmd, Mode.normal, ["<no output yet>"], [], 0, 0, 1, 1, "", false,
   false, false, ⟨"main", 0, 0, 0, []⟩, none, Option.none⟩

/-- The end-to-end cancellation scenario: dispatch `pull` (with the pull-type
follow-up configured), press Control-C mid-flight, then let the worker finish
with the cancellation flag set and poll for messages. -/
def c2_final : VMState :=
  poll_messages
    (handle_ctrl_c (run_command_async c2_state0 "pull" LfsMode.pull).1
      ⟨"main", 0, 0, 0, []⟩)
    (worker_send
      (handle_ctrl_c (run_command_async c2_state0 "pull" LfsMode.pull).1
        ⟨"main", 0, 0, 0, []⟩).cancel_flag
      (run_git_with_lfs c2_env "pull" LfsMode.pull).1)
    ⟨"main", 0, 0, 0, []⟩

/-- C2 as stated is false on the code: although the runner's `CommandResult`
does contain the primary output (`"hello"`) with the canceled note and no
follow-up section, end-to-end that result is never shown — the worker
suppresses it, so the result buffer visible to the user after cancellation
holds only the dispatch echo and the cancellation notice, and the primary
command's output appears in neither visible buffer. -/
theorem claim_C2_counterexample :
    (run_git_with_lfs c2_env "pull" LfsMode.pull).1.log_lines = ["hello"] ∧
    (run_git_with_lfs c2_env "pull" LfsMode.pull).1.result_lines =
      ["$ git pull", "git exit code: 0", "<canceled before LFS stage>"] ∧
    c2_final.log_lines = ["<running...>", "<canceled by user>"] ∧
    c2_final.result_lines =
      ["$ git pull", "running...",
       "canceled by user (git process may still finish in background)"] ∧
    c2_final.log_lines.contains "hello" = false ∧
    c2_final.result_lines.contains "hello" = false := by
  refine ⟨by decide, by decide, by decide, by decide, by decide, by decide⟩

theorem claim_C2_witness :
    (c2_env.cancelAtLfsCheck = true ∧
      c2_env.primaryOutcome = ProcOutcome.ok ["hello"] [] 0 ∧
      ¬parse_args_line "pull" = []) ∧
    ((run_git_with_lfs c2_env "pull" LfsMode.pull).2 = false ∧
      worker_send true (run_git_with_lfs c2_env "pull" LfsMode.pull).1 = []) :=
  ⟨⟨rfl, rfl, by decide⟩,
   (claim_C2_cancel_before_lfs c2_env "pull" ["hello"] [] 0 rfl rfl (by decide)).1,
   (claim_C2_cancel_before_lfs c2_env "pull" ["hello"] [] 0 rfl rfl
     (by decide)).2.2.2.1⟩

end GitTui
